import Mathlib

/-!
Verification of the battleship protocol/transport core.

The definitions below shallowly embed the Rust sources:
  - `src/protocol.rs` / `src/domain.rs`  (the `Message` data model),
  - the bincode v1 wire format used by `TcpTransport` (`bincode::serialize`,
    fixed-width little-endian integers, `u32` enum tags, `u64` length
    prefixes),
  - `src/transport/tcp.rs` (`TcpTransport::send` / `recv` framing),
  - `src/transport/heartbeat.rs` (`HeartbeatTransport::recv`),
  - `src/player_node.rs` (`PlayerNode::handshake` / `run`),
  - `src/skeleton.rs` (`Skeleton::run`),
  - `src/transport/in_memory.rs` (`InMemoryTransport`).

Rust strings are embedded as their UTF-8 byte lists; machine integers are
`Nat` values with explicit bounds in validity predicates.
-/

namespace Battleship

/-- Protocol version from `src/protocol.rs`: `pub const PROTOCOL_VERSION: u8 = 1`. -/
def PROTOCOL_VERSION : Nat := 1

/-- Orientation of a ship (`src/ship.rs`). -/
inductive Orientation where
  | Horizontal
  | Vertical
deriving DecidableEq, Repr

/-- Guess result from `src/domain.rs` (`GuessResult`): `Hit | Miss | Sink(String)`.
The `String` is embedded as its UTF-8 byte list. -/
inductive DGuessResult where
  | Hit
  | Miss
  | Sink (name : List Nat)
deriving DecidableEq, Repr

/-- Game status from `src/domain.rs` (`GameStatus`). -/
inductive DGameStatus where
  | InProgress
  | Won
  | Lost
deriving DecidableEq, Repr

/-- Ship from `src/domain.rs`: `{ name: String, sunk: bool, position: Option<(u8, u8, Orientation)> }`. -/
structure DShip where
  name : List Nat
  sunk : Bool
  position : Option (Nat × Nat × Orientation)
deriving DecidableEq, Repr

/-- Bitboard `BitBoard<u128, 10>` (`src/bitboard.rs`): a single `u128` field `bits`. -/
structure BitBoard where
  bits : Nat
deriving DecidableEq, Repr

/-- Ship state from `src/ship.rs` (`ShipState`):
`{ name: &'static str, sunk: bool, position: Option<(usize, usize, Orientation)> }`. -/
structure ShipState where
  name : List Nat
  sunk : Bool
  position : Option (Nat × Nat × Orientation)
deriving DecidableEq, Repr

/-- Modelled from the spec: the final shape of `BoardState` is absent from this
src snapshot (`src/board.rs` is a superseded revision); the shape
`{ ship_states: [ShipState; NUM_SHIPS], ship_map, hits, misses }` is taken from
the spec's data model and the crate's tests, with `NUM_SHIPS = 5` ship states
kept as a list whose length is fixed by the validity predicate. -/
structure BoardState where
  ship_states : List ShipState
  ship_map : BitBoard
  hits : BitBoard
  misses : BitBoard
deriving DecidableEq, Repr

/-- Guess board state from `src/game.rs` (`GuessBoardState`). -/
structure GuessBoardState where
  hits : BitBoard
  misses : BitBoard
deriving DecidableEq, Repr

/-- Game state from `src/game.rs` (`GameState`): `{ my_board, my_guesses }`. -/
structure GameState where
  my_board : BoardState
  my_guesses : GuessBoardState
deriving DecidableEq, Repr

/-- Sync payload from `src/domain.rs` (`SyncPayload`):
`{ game_state: GameState, enemy_ships_remaining: [bool; NUM_SHIPS] }`. -/
structure SyncPayload where
  game_state : GameState
  enemy_ships_remaining : List Bool
deriving DecidableEq, Repr

/-- The protocol message type from `src/protocol.rs` (`enum Message`),
variants in source order. -/
inductive Message where
  | Handshake (version : Nat)
  | HandshakeAck (version : Nat)
  | Guess (version : Nat) (seq : Nat) (x : Nat) (y : Nat)
  | StatusReq (version : Nat) (seq : Nat)
  | StatusResp (version : Nat) (seq : Nat) (res : DGuessResult)
  | Sync (version : Nat) (seq : Nat) (payload : SyncPayload)
  | ShipStatusReq (version : Nat) (seq : Nat) (id : Nat)
  | ShipStatusResp (version : Nat) (seq : Nat) (ship : DShip)
  | GameStatusReq (version : Nat) (seq : Nat)
  | GameStatusResp (version : Nat) (seq : Nat) (status : DGameStatus)
  | Ack (version : Nat) (seq : Nat)
  | Heartbeat (version : Nat)
deriving DecidableEq, Repr

/-! ### Wire primitives (bincode v1 format)

Modelled from the spec: the wire encoding is bincode's legacy format as used
by `bincode::serialize` in `src/transport/tcp.rs` — fixed-width little-endian
integers, `u32` enum variant tags, `u64` length prefixes for strings, one byte
for `bool` and for `Option` tags, fixed-size arrays written element-wise. The
serde derive impls for the core state types are absent from this src snapshot
(only the crate's tests exercise them), so the derive-generated codec is
modelled here explicitly. -/

/-- Encode `n` as `k` little-endian bytes (low byte first). -/
def encodeLE : Nat → Nat → List Nat
  | 0, _ => []
  | k + 1, n => (n % 256) :: encodeLE k (n / 256)

/-- Decode `k` little-endian bytes into a `Nat`, returning the remaining input. -/
def decodeLE : Nat → List Nat → Option (Nat × List Nat)
  | 0, s => some (0, s)
  | _ + 1, [] => none
  | k + 1, b :: s =>
    match decodeLE k s with
    | some (m, r) => some (b + 256 * m, r)
    | none => none

/-- Encode a `bool` as a single byte, as bincode does. -/
def encodeBool (b : Bool) : List Nat :=
  [if b then 1 else 0]

/-- Decode a single bincode `bool` byte; any byte other than 0 or 1 is an error. -/
def decodeBool : List Nat → Option (Bool × List Nat)
  | 0 :: s => some (false, s)
  | 1 :: s => some (true, s)
  | _ => none

/-- Encode a Rust `String`/`&str` (as its byte list): `u64` length then the bytes. -/
def encodeBytes (s : List Nat) : List Nat :=
  encodeLE 8 s.length ++ s

/-- Decode a bincode string: `u64` length then that many bytes. -/
def decodeBytes (s : List Nat) : Option (List Nat × List Nat) :=
  match decodeLE 8 s with
  | some (len, r) => if len ≤ r.length then some (r.take len, r.drop len) else none
  | none => none

/-- Encode an `Option` as bincode does: one tag byte, then the payload if present. -/
def encodeOption (f : α → List Nat) : Option α → List Nat
  | none => [0]
  | some a => 1 :: f a

/-- Decode a bincode `Option`. -/
def decodeOption (p : List Nat → Option (α × List Nat)) : List Nat → Option (Option α × List Nat)
  | 0 :: s => some (none, s)
  | 1 :: s =>
    match p s with
    | some (a, r) => some (some a, r)
    | none => none
  | _ => none

/-- Encode a list element-wise (bincode fixed-size array: no length header). -/
def encodeList (f : α → List Nat) : List α → List Nat
  | [] => []
  | a :: as => f a ++ encodeList f as

/-- Decode exactly `k` elements (bincode fixed-size array). -/
def decodeN (p : List Nat → Option (α × List Nat)) : Nat → List Nat → Option (List α × List Nat)
  | 0, s => some ([], s)
  | k + 1, s =>
    match p s with
    | some (a, r) =>
      match decodeN p k r with
      | some (as, r2) => some (a :: as, r2)
      | none => none
    | none => none

/-! ### Codec for the domain types -/

/-- Encode an `Orientation` (derived enum codec: `u32` variant tag). -/
def encodeOrientation : Orientation → List Nat
  | .Horizontal => encodeLE 4 0
  | .Vertical => encodeLE 4 1

/-- Decode an `Orientation`. -/
def decodeOrientation (s : List Nat) : Option (Orientation × List Nat) :=
  match decodeLE 4 s with
  | some (0, r) => some (.Horizontal, r)
  | some (1, r) => some (.Vertical, r)
  | _ => none

/-- Encode a domain `GuessResult` (tags `Hit = 0`, `Miss = 1`, `Sink = 2`). -/
def encodeDGuessResult : DGuessResult → List Nat
  | .Hit => encodeLE 4 0
  | .Miss => encodeLE 4 1
  | .Sink name => encodeLE 4 2 ++ encodeBytes name

/-- Decode a domain `GuessResult`. -/
def decodeDGuessResult (s : List Nat) : Option (DGuessResult × List Nat) :=
  match decodeLE 4 s with
  | some (0, r) => some (.Hit, r)
  | some (1, r) => some (.Miss, r)
  | some (2, r) =>
    match decodeBytes r with
    | some (name, r2) => some (.Sink name, r2)
    | none => none
  | _ => none

/-- Encode a domain `GameStatus` (tags in source order). -/
def encodeDGameStatus : DGameStatus → List Nat
  | .InProgress => encodeLE 4 0
  | .Won => encodeLE 4 1
  | .Lost => encodeLE 4 2

/-- Decode a domain `GameStatus`. -/
def decodeDGameStatus (s : List Nat) : Option (DGameStatus × List Nat) :=
  match decodeLE 4 s with
  | some (0, r) => some (.InProgress, r)
  | some (1, r) => some (.Won, r)
  | some (2, r) => some (.Lost, r)
  | _ => none

/-- Encode a position triple `(u8, u8, Orientation)` from `domain::Ship`. -/
def encodePos8 (p : Nat × Nat × Orientation) : List Nat :=
  encodeLE 1 p.1 ++ encodeLE 1 p.2.1 ++ encodeOrientation p.2.2

/-- Decode a position triple `(u8, u8, Orientation)`. -/
def decodePos8 (s : List Nat) : Option ((Nat × Nat × Orientation) × List Nat) :=
  match decodeLE 1 s with
  | some (a, r1) =>
    match decodeLE 1 r1 with
    | some (b, r2) =>
      match decodeOrientation r2 with
      | some (o, r3) => some ((a, b, o), r3)
      | none => none
    | none => none
  | none => none

/-- Encode a position triple `(usize, usize, Orientation)` from `ShipState`. -/
def encodePosUsize (p : Nat × Nat × Orientation) : List Nat :=
  encodeLE 8 p.1 ++ encodeLE 8 p.2.1 ++ encodeOrientation p.2.2

/-- Decode a position triple `(usize, usize, Orientation)`. -/
def decodePosUsize (s : List Nat) : Option ((Nat × Nat × Orientation) × List Nat) :=
  match decodeLE 8 s with
  | some (a, r1) =>
    match decodeLE 8 r1 with
    | some (b, r2) =>
      match decodeOrientation r2 with
      | some (o, r3) => some ((a, b, o), r3)
      | none => none
    | none => none
  | none => none

/-- Encode a domain `Ship`: name, sunk flag, optional `(u8, u8, Orientation)` position. -/
def encodeDShip (sh : DShip) : List Nat :=
  encodeBytes sh.name ++ encodeBool sh.sunk ++ encodeOption encodePos8 sh.position

/-- Decode a domain `Ship`. -/
def decodeDShip (s : List Nat) : Option (DShip × List Nat) :=
  match decodeBytes s with
  | some (name, r1) =>
    match decodeBool r1 with
    | some (sunk, r2) =>
      match decodeOption decodePos8 r2 with
      | some (pos, r3) => some (⟨name, sunk, pos⟩, r3)
      | none => none
    | none => none
  | none => none

/-- Encode a `BitBoard<u128, 10>`: its single `u128` field. -/
def encodeBitBoard (bb : BitBoard) : List Nat :=
  encodeLE 16 bb.bits

/-- Decode a `BitBoard<u128, 10>`. -/
def decodeBitBoard (s : List Nat) : Option (BitBoard × List Nat) :=
  match decodeLE 16 s with
  | some (n, r) => some (⟨n⟩, r)
  | none => none

/-- Encode a `ShipState`: name, sunk flag, optional `(usize, usize, Orientation)` position. -/
def encodeShipState (st : ShipState) : List Nat :=
  encodeBytes st.name ++ encodeBool st.sunk ++ encodeOption encodePosUsize st.position

/-- Decode a `ShipState`. -/
def decodeShipState (s : List Nat) : Option (ShipState × List Nat) :=
  match decodeBytes s with
  | some (name, r1) =>
    match decodeBool r1 with
    | some (sunk, r2) =>
      match decodeOption decodePosUsize r2 with
      | some (pos, r3) => some (⟨name, sunk, pos⟩, r3)
      | none => none
    | none => none
  | none => none

/-- Encode a `BoardState`: the five ship states then three bitboards. -/
def encodeBoardState (b : BoardState) : List Nat :=
  encodeList encodeShipState b.ship_states ++ encodeBitBoard b.ship_map ++
    encodeBitBoard b.hits ++ encodeBitBoard b.misses

/-- Decode a `BoardState` (reads exactly `NUM_SHIPS = 5` ship states). -/
def decodeBoardState (s : List Nat) : Option (BoardState × List Nat) :=
  match decodeN decodeShipState 5 s with
  | some (sts, r1) =>
    match decodeBitBoard r1 with
    | some (sm, r2) =>
      match decodeBitBoard r2 with
      | some (h, r3) =>
        match decodeBitBoard r3 with
        | some (m, r4) => some (⟨sts, sm, h, m⟩, r4)
        | none => none
      | none => none
    | none => none
  | none => none

/-- Encode a `GuessBoardState`: hits then misses. -/
def encodeGuessBoardState (g : GuessBoardState) : List Nat :=
  encodeBitBoard g.hits ++ encodeBitBoard g.misses

/-- Decode a `GuessBoardState`. -/
def decodeGuessBoardState (s : List Nat) : Option (GuessBoardState × List Nat) :=
  match decodeBitBoard s with
  | some (h, r1) =>
    match decodeBitBoard r1 with
    | some (m, r2) => some (⟨h, m⟩, r2)
    | none => none
  | none => none

/-- Encode a `GameState`: board then guesses. -/
def encodeGameState (g : GameState) : List Nat :=
  encodeBoardState g.my_board ++ encodeGuessBoardState g.my_guesses

/-- Decode a `GameState`. -/
def decodeGameState (s : List Nat) : Option (GameState × List Nat) :=
  match decodeBoardState s with
  | some (b, r1) =>
    match decodeGuessBoardState r1 with
    | some (g, r2) => some (⟨b, g⟩, r2)
    | none => none
  | none => none

/-- Encode a `SyncPayload`: game state then the `[bool; NUM_SHIPS]` array. -/
def encodeSyncPayload (p : SyncPayload) : List Nat :=
  encodeGameState p.game_state ++ encodeList encodeBool p.enemy_ships_remaining

/-- Decode a `SyncPayload` (reads exactly `NUM_SHIPS = 5` booleans). -/
def decodeSyncPayload (s : List Nat) : Option (SyncPayload × List Nat) :=
  match decodeGameState s with
  | some (g, r1) =>
    match decodeN decodeBool 5 r1 with
    | some (bs, r2) => some (⟨g, bs⟩, r2)
    | none => none
  | none => none

/-- Encode a `Message` as `bincode::serialize` does: `u32` variant tag, then the
fields in order (`u8` one byte, `u64`/`usize` eight bytes, little-endian). -/
def encodeMessage : Message → List Nat
  | .Handshake v => encodeLE 4 0 ++ encodeLE 1 v
  | .HandshakeAck v => encodeLE 4 1 ++ encodeLE 1 v
  | .Guess v sq x y => encodeLE 4 2 ++ encodeLE 1 v ++ encodeLE 8 sq ++ encodeLE 1 x ++ encodeLE 1 y
  | .StatusReq v sq => encodeLE 4 3 ++ encodeLE 1 v ++ encodeLE 8 sq
  | .StatusResp v sq res => encodeLE 4 4 ++ encodeLE 1 v ++ encodeLE 8 sq ++ encodeDGuessResult res
  | .Sync v sq payload => encodeLE 4 5 ++ encodeLE 1 v ++ encodeLE 8 sq ++ encodeSyncPayload payload
  | .ShipStatusReq v sq id => encodeLE 4 6 ++ encodeLE 1 v ++ encodeLE 8 sq ++ encodeLE 8 id
  | .ShipStatusResp v sq ship => encodeLE 4 7 ++ encodeLE 1 v ++ encodeLE 8 sq ++ encodeDShip ship
  | .GameStatusReq v sq => encodeLE 4 8 ++ encodeLE 1 v ++ encodeLE 8 sq
  | .GameStatusResp v sq st => encodeLE 4 9 ++ encodeLE 1 v ++ encodeLE 8 sq ++ encodeDGameStatus st
  | .Ack v sq => encodeLE 4 10 ++ encodeLE 1 v ++ encodeLE 8 sq
  | .Heartbeat v => encodeLE 4 11 ++ encodeLE 1 v

/-- Decode the `(version, seq)` pair common to most variants. -/
def decodeVerSeq (s : List Nat) : Option ((Nat × Nat) × List Nat) :=
  match decodeLE 1 s with
  | some (v, r1) =>
    match decodeLE 8 r1 with
    | some (sq, r2) => some ((v, sq), r2)
    | none => none
  | none => none

/-- Decode a `Message` (inverse of `encodeMessage`). -/
def decodeMessage (s : List Nat) : Option (Message × List Nat) :=
  match decodeLE 4 s with
  | some (0, r) =>
    match decodeLE 1 r with
    | some (v, r1) => some (.Handshake v, r1)
    | none => none
  | some (1, r) =>
    match decodeLE 1 r with
    | some (v, r1) => some (.HandshakeAck v, r1)
    | none => none
  | some (2, r) =>
    match decodeVerSeq r with
    | some ((v, sq), r1) =>
      match decodeLE 1 r1 with
      | some (x, r2) =>
        match decodeLE 1 r2 with
        | some (y, r3) => some (.Guess v sq x y, r3)
        | none => none
      | none => none
    | none => none
  | some (3, r) =>
    match decodeVerSeq r with
    | some ((v, sq), r1) => some (.StatusReq v sq, r1)
    | none => none
  | some (4, r) =>
    match decodeVerSeq r with
    | some ((v, sq), r1) =>
      match decodeDGuessResult r1 with
      | some (res, r2) => some (.StatusResp v sq res, r2)
      | none => none
    | none => none
  | some (5, r) =>
    match decodeVerSeq r with
    | some ((v, sq), r1) =>
      match decodeSyncPayload r1 with
      | some (p, r2) => some (.Sync v sq p, r2)
      | none => none
    | none => none
  | some (6, r) =>
    match decodeVerSeq r with
    | some ((v, sq), r1) =>
      match decodeLE 8 r1 with
      | some (id, r2) => some (.ShipStatusReq v sq id, r2)
      | none => none
    | none => none
  | some (7, r) =>
    match decodeVerSeq r with
    | some ((v, sq), r1) =>
      match decodeDShip r1 with
      | some (sh, r2) => some (.ShipStatusResp v sq sh, r2)
      | none => none
    | none => none
  | some (8, r) =>
    match decodeVerSeq r with
    | some ((v, sq), r1) => some (.GameStatusReq v sq, r1)
    | none => none
  | some (9, r) =>
    match decodeVerSeq r with
    | some ((v, sq), r1) =>
      match decodeDGameStatus r1 with
      | some (st, r2) => some (.GameStatusResp v sq st, r2)
      | none => none
    | none => none
  | some (10, r) =>
    match decodeVerSeq r with
    | some ((v, sq), r1) => some (.Ack v sq, r1)
    | none => none
  | some (11, r) =>
    match decodeLE 1 r with
    | some (v, r1) => some (.Heartbeat v, r1)
    | none => none
  | _ => none

/-! ### Validity predicates (machine-integer bounds of the Rust field types) -/

/-- Validity of an embedded Rust string: bytes below 256, length within `u64`. -/
def validBytes (s : List Nat) : Bool :=
  s.all (· < 256) && s.length < 2 ^ 64

/-- Validity of a `u8`-coordinate position triple. -/
def validPos8 (p : Nat × Nat × Orientation) : Bool :=
  p.1 < 256 && p.2.1 < 256

/-- Validity of a `usize`-coordinate position triple. -/
def validPosUsize (p : Nat × Nat × Orientation) : Bool :=
  p.1 < 2 ^ 64 && p.2.1 < 2 ^ 64

/-- Validity of a domain `GuessResult`. -/
def DGuessResult.valid : DGuessResult → Bool
  | .Hit => true
  | .Miss => true
  | .Sink name => validBytes name

/-- Validity of a domain `Ship`. -/
def DShip.valid (sh : DShip) : Bool :=
  validBytes sh.name && sh.position.all validPos8

/-- Validity of a `BitBoard` (`u128` bound). -/
def BitBoard.valid (bb : BitBoard) : Bool :=
  bb.bits < 2 ^ 128

/-- Validity of a `ShipState`. -/
def ShipState.valid (st : ShipState) : Bool :=
  validBytes st.name && st.position.all validPosUsize

/-- Validity of a `BoardState` (exactly `NUM_SHIPS = 5` ship states). -/
def BoardState.valid (b : BoardState) : Bool :=
  b.ship_states.length == 5 && b.ship_states.all ShipState.valid &&
    b.ship_map.valid && b.hits.valid && b.misses.valid

/-- Validity of a `GuessBoardState`. -/
def GuessBoardState.valid (g : GuessBoardState) : Bool :=
  g.hits.valid && g.misses.valid

/-- Validity of a `GameState`. -/
def GameState.valid (g : GameState) : Bool :=
  g.my_board.valid && g.my_guesses.valid

/-- Validity of a `SyncPayload` (exactly `NUM_SHIPS = 5` booleans). -/
def SyncPayload.valid (p : SyncPayload) : Bool :=
  p.game_state.valid && p.enemy_ships_remaining.length == 5

/-- Validity of a `Message`: every machine-integer field within its Rust width. -/
def Message.valid : Message → Bool
  | .Handshake v => v < 256
  | .HandshakeAck v => v < 256
  | .Guess v sq x y => v < 256 && sq < 2 ^ 64 && x < 256 && y < 256
  | .StatusReq v sq => v < 256 && sq < 2 ^ 64
  | .StatusResp v sq res => v < 256 && sq < 2 ^ 64 && res.valid
  | .Sync v sq payload => v < 256 && sq < 2 ^ 64 && payload.valid
  | .ShipStatusReq v sq id => v < 256 && sq < 2 ^ 64 && id < 2 ^ 64
  | .ShipStatusResp v sq ship => v < 256 && sq < 2 ^ 64 && ship.valid
  | .GameStatusReq v sq => v < 256 && sq < 2 ^ 64
  | .GameStatusResp v sq _ => v < 256 && sq < 2 ^ 64
  | .Ack v sq => v < 256 && sq < 2 ^ 64
  | .Heartbeat v => v < 256

/-! ### TcpTransport framing (`src/transport/tcp.rs`) -/

/-- Maximum message size from `src/transport/tcp.rs`:
`const MAX_MESSAGE_SIZE: u32 = 10_000_000`. -/
def MAX_MESSAGE_SIZE : Nat := 10000000

/-- Error classes produced by `TcpTransport::send` / `recv`, one constructor per
distinguishable `anyhow!` message in the source. -/
inductive TcpError where
  | connectionClosed
  | connectionReset
  | msgTooLarge (len max : Nat)
  | invalidLength
  | deserializationFailure
  | timeout
  | shutDown
  | idleTimeout
deriving DecidableEq, Repr

/-- Embedding of the `recv_op` body of `TcpTransport::recv`: read a 4-byte
big-endian length, check it against `max_message_size` and against zero, then
read and deserialize the payload. Returns the result together with the bytes
left unconsumed on the stream (so "fails without reading the payload" is
visible). A stream exhausted mid-read models `read_exact` hitting EOF. -/
def tcpRecvModel (maxSize : Nat) (stream : List Nat) : Except TcpError Message × List Nat :=
  match stream with
  | b0 :: b1 :: b2 :: b3 :: rest =>
    match (((b0 * 256 + b1) * 256 + b2) * 256 + b3 : Nat) with
    | len =>
      if len > maxSize then (.error (.msgTooLarge len maxSize), rest)
      else if len = 0 then (.error .invalidLength, rest)
      else if rest.length < len then (.error .connectionClosed, [])
      else
        match decodeMessage (rest.take len) with
        | some (m, _) => (.ok m, rest.drop len)
        | none => (.error .deserializationFailure, rest.drop len)
  | _ => (.error .connectionClosed, [])

/-- Embedding of the `send_op` body of `TcpTransport::send`: serialize, then
compare `data.len() as u32` — the serialized length truncated modulo `2^32` —
against `max_message_size`, rejecting before anything is written (the error
message formats the untruncated `data.len()`); otherwise write the 4-byte
big-endian prefix `(data.len() as u32).to_be_bytes()` followed by the payload.
The second component is the byte sequence written to the stream (empty when
rejected). -/
def tcpSendModel (maxSize : Nat) (msg : Message) : Except TcpError Unit × List Nat :=
  match encodeMessage msg with
  | data =>
    if data.length % 2 ^ 32 > maxSize then (.error (.msgTooLarge data.length maxSize), [])
    else
      (.ok (),
        [data.length % 2 ^ 32 / 256 ^ 3 % 256, data.length % 2 ^ 32 / 256 ^ 2 % 256,
          data.length % 2 ^ 32 / 256 % 256, data.length % 2 ^ 32 % 256] ++ data)

/-! ### Transports as message streams

For the session-level components a transport's receive side is modelled as the
list of results its `recv` calls deliver: `Except TransportErr Message`. An
exhausted list models the peer having closed the connection. -/

/-- Transport-level error classes observed through `Transport::recv`. -/
inductive TransportErr where
  | closed
  | reset
  | timeout
deriving DecidableEq, Repr

/-- Inbound stream of one transport: successive `recv` results. -/
def Inbound := List (Except TransportErr Message)

/-! ### HeartbeatTransport (`src/transport/heartbeat.rs`) -/

/-- Errors surfaced by `HeartbeatTransport::recv`. -/
inductive HBError where
  | transport (e : TransportErr)
  | versionMismatch (expected got : Nat)
deriving DecidableEq, Repr

/-- Embedding of the receive loop of `HeartbeatTransport::recv` (enabled mode),
restricted to the inbound-message arm of the `select!` (the periodic timer arm
depends on real time and sends only outbound heartbeats). On a `Heartbeat` with
the negotiated version: echo a `Heartbeat` back on the inner transport and keep
waiting; on a version-mismatched `Heartbeat`: fail; on any other message:
return it. Result: the delivered message, the unconsumed inner stream, and the
list of heartbeats echoed on the inner transport. -/
def heartbeatRecv : List (Except TransportErr Message) →
    Except HBError (Message × List (Except TransportErr Message) × List Message)
  | [] => .error (.transport .closed)
  | .error e :: _ => .error (.transport e)
  | .ok (.Heartbeat v) :: rest =>
    if v = PROTOCOL_VERSION then
      match heartbeatRecv rest with
      | .ok (m, r, echoes) => .ok (m, r, .Heartbeat PROTOCOL_VERSION :: echoes)
      | .error e => .error e
    else .error (.versionMismatch PROTOCOL_VERSION v)
  | .ok m :: rest => .ok (m, rest, [])

/-- Whether a message is a heartbeat. -/
def Message.isHeartbeat : Message → Bool
  | .Heartbeat _ => true
  | _ => false

/-! ### PlayerNode (`src/player_node.rs`) -/

/-- Engine-level error (opaque: `GameEngine` is an external collaborator). -/
inductive EngineErr where
  | boardError
deriving DecidableEq, Repr

/-- GuessResult of the core engine (`src/common.rs`): the sink name is a
`&'static str`, embedded as its byte list. -/
inductive CGuessResult where
  | Hit
  | Miss
  | Sink (name : List Nat)
deriving DecidableEq, Repr

/-- Conversion `domain::GuessResult::from(common::GuessResult)` (`src/domain.rs`). -/
def commonToDomain : CGuessResult → DGuessResult
  | .Hit => .Hit
  | .Miss => .Miss
  | .Sink name => .Sink name

/-- Error classes of `PlayerNode::handshake` / `run`, one constructor per
distinguishable `anyhow!` error in the source. -/
inductive PNError where
  | transport (e : TransportErr)
  | handshakeAckVersionMismatch (expected got : Nat)
  | handshakeAckUnexpected
  | handshakeVersionMismatch (expected got : Nat)
  | handshakeUnexpected
  | statusRespVersionMismatch (expected got : Nat)
  | statusRespSeqMismatch (expected got : Nat)
  | statusRespUnexpected
  | statusRespUnreachable
  | guessVersionMismatch (expected got : Nat)
  | guessOutOfOrder (expected got : Nat)
  | guessUnexpected
  | engine (e : EngineErr)
deriving DecidableEq, Repr

/-- Embedding of `PlayerNode::handshake`. The initiator sends
`Handshake{PROTOCOL_VERSION}` and validates the reply; the responder validates
the first message and sends `HandshakeAck{PROTOCOL_VERSION}`. Returns the
messages sent and the unconsumed inbound stream. A `recv` on an exhausted
stream models the peer having closed the connection. -/
def handshakeModel (initiator : Bool) (inbound : Inbound) :
    Except PNError (List Message × Inbound) :=
  if initiator then
    match inbound with
    | [] => .error (.transport .closed)
    | .error e :: _ => .error (.transport e)
    | .ok (.HandshakeAck v) :: rest =>
      if v = PROTOCOL_VERSION then .ok ([.Handshake PROTOCOL_VERSION], rest)
      else .error (.handshakeAckVersionMismatch PROTOCOL_VERSION v)
    | .ok _ :: _ => .error .handshakeAckUnexpected
  else
    match inbound with
    | [] => .error (.transport .closed)
    | .error e :: _ => .error (.transport e)
    | .ok (.Handshake v) :: rest =>
      if v = PROTOCOL_VERSION then .ok ([.HandshakeAck PROTOCOL_VERSION], rest)
      else .error (.handshakeVersionMismatch PROTOCOL_VERSION v)
    | .ok _ :: _ => .error .handshakeUnexpected

/-- Embedding of the gating structure of `PlayerNode::run`: the handshake runs
first (`self.handshake(first_move).await?`), and only on its success does the
active game loop — abstracted here as `activeLoop` on the remaining inbound
stream — execute. -/
def runGated (activeLoop : Inbound → Except PNError α) (firstMove : Bool)
    (inbound : Inbound) : Except PNError α :=
  match handshakeModel firstMove inbound with
  | .error e => .error e
  | .ok (_, rest) => activeLoop rest

/-- Embedding of the opponent-turn branch of `PlayerNode::run` (the
`else` arm of the active loop): receive a `Guess`, validate its version against
`PROTOCOL_VERSION` and its seq against `expected_recv_seq`, apply it to the
engine (`opponent_guess`), reply with a `StatusResp` echoing the received seq,
and increment `expected_recv_seq`. Any mismatch or unexpected message type is a
session-ending error. -/
def opponentTurnStep (eng : Nat → Nat → Except EngineErr CGuessResult)
    (expected : Nat) (msg : Message) : Except PNError (Message × Nat) :=
  match msg with
  | .Guess v sq x y =>
    if v ≠ PROTOCOL_VERSION then .error (.guessVersionMismatch PROTOCOL_VERSION v)
    else if sq ≠ expected then .error (.guessOutOfOrder expected sq)
    else
      match eng x y with
      | .error e => .error (.engine e)
      | .ok res => .ok (.StatusResp PROTOCOL_VERSION sq (commonToDomain res), expected + 1)
  | _ => .error .guessUnexpected

/-- Embedding of the my-turn reply validation of `PlayerNode::run`: after
sending `Guess{seq = my_seq}`, the reply must be a `StatusResp` whose seq
equals `my_seq` and whose version equals `PROTOCOL_VERSION`; the fallback arm
reports version mismatch first, then seq mismatch (its final arm is
unreachable by the guards), and any other message type ends the session. -/
def awaitStatusRespStep (mySeq : Nat) (msg : Message) : Except PNError DGuessResult :=
  match msg with
  | .StatusResp v sq res =>
    if sq = mySeq ∧ v = PROTOCOL_VERSION then .ok res
    else if v ≠ PROTOCOL_VERSION then .error (.statusRespVersionMismatch PROTOCOL_VERSION v)
    else if sq ≠ mySeq then .error (.statusRespSeqMismatch mySeq sq)
    else .error .statusRespUnreachable
  | _ => .error .statusRespUnexpected

/-- Iterate `opponentTurnStep` over an inbound stream: the receive-side
projection of `PlayerNode::run`'s sequencing state. Returns the `StatusResp`
replies sent, the final `expected_recv_seq`, and the seqs of the accepted
guesses in order. A transport error propagates (`self.transport.recv().await?`). -/
def opponentRecvLoop (eng : Nat → Nat → Except EngineErr CGuessResult)
    (expected : Nat) : Inbound → Except PNError (List Message × Nat × List Nat)
  | [] => .ok ([], expected, [])
  | .error e :: _ => .error (.transport e)
  | .ok msg :: rest =>
    match opponentTurnStep eng expected msg with
    | .error e => .error e
    | .ok (reply, expected2) =>
      match opponentRecvLoop eng expected2 rest with
      | .error e => .error e
      | .ok (replies, final, accepted) =>
        match msg with
        | .Guess _ sq _ _ => .ok (reply :: replies, final, sq :: accepted)
        | _ => .ok (reply :: replies, final, accepted)

/-! ### Skeleton (`src/skeleton.rs`) -/

/-- Abstract `GameApi` implementation owned by a `Skeleton` (external engine). -/
structure EngApi where
  makeGuess : Nat → Nat → Except EngineErr DGuessResult
  getShipStatus : Nat → Except EngineErr DShip
  syncState : SyncPayload → Except EngineErr Unit
  status : DGameStatus

/-- Errors that abort `Skeleton::run` (engine failures propagated by `?`). -/
inductive SkelError where
  | engine (e : EngineErr)
deriving DecidableEq, Repr

/-- Embedding of one iteration of `Skeleton::run`'s match. Request variants are
validated against `PROTOCOL_VERSION` and `next_seq`: on mismatch the skeleton
replies `Ack` carrying the received seq and leaves `next_seq` unchanged; on
acceptance it increments `next_seq`, dispatches to the engine and replies with
the matching response echoing the request seq. The four response-type variants
receive `Ack` carrying the current `next_seq`. `Handshake`, `HandshakeAck` and
`Heartbeat` are absent from the source match (it is non-exhaustive over the
final `Message` shape), so the step is undefined (`none`) on them. Result:
messages sent and updated `next_seq`. -/
def skeletonStep (eng : EngApi) (nextSeq : Nat) (msg : Message) :
    Option (Except SkelError (List Message × Nat)) :=
  match msg with
  | .Guess v sq x y =>
    if v ≠ PROTOCOL_VERSION ∨ sq ≠ nextSeq then some (.ok ([.Ack PROTOCOL_VERSION sq], nextSeq))
    else
      match eng.makeGuess x y with
      | .error e => some (.error (.engine e))
      | .ok res => some (.ok ([.StatusResp PROTOCOL_VERSION sq res], nextSeq + 1))
  | .StatusReq v sq =>
    if v ≠ PROTOCOL_VERSION ∨ sq ≠ nextSeq then some (.ok ([.Ack PROTOCOL_VERSION sq], nextSeq))
    else some (.ok ([.GameStatusResp PROTOCOL_VERSION sq eng.status], nextSeq + 1))
  | .GameStatusReq v sq =>
    if v ≠ PROTOCOL_VERSION ∨ sq ≠ nextSeq then some (.ok ([.Ack PROTOCOL_VERSION sq], nextSeq))
    else some (.ok ([.GameStatusResp PROTOCOL_VERSION sq eng.status], nextSeq + 1))
  | .ShipStatusReq v sq id =>
    if v ≠ PROTOCOL_VERSION ∨ sq ≠ nextSeq then some (.ok ([.Ack PROTOCOL_VERSION sq], nextSeq))
    else
      match eng.getShipStatus id with
      | .error e => some (.error (.engine e))
      | .ok ship => some (.ok ([.ShipStatusResp PROTOCOL_VERSION sq ship], nextSeq + 1))
  | .Sync v sq payload =>
    if v ≠ PROTOCOL_VERSION ∨ sq ≠ nextSeq then some (.ok ([.Ack PROTOCOL_VERSION sq], nextSeq))
    else
      match eng.syncState payload with
      | .error e => some (.error (.engine e))
      | .ok _ => some (.ok ([.Ack PROTOCOL_VERSION sq], nextSeq + 1))
  | .StatusResp _ _ _ => some (.ok ([.Ack PROTOCOL_VERSION nextSeq], nextSeq))
  | .ShipStatusResp _ _ _ => some (.ok ([.Ack PROTOCOL_VERSION nextSeq], nextSeq))
  | .GameStatusResp _ _ _ => some (.ok ([.Ack PROTOCOL_VERSION nextSeq], nextSeq))
  | .Ack _ _ => some (.ok ([.Ack PROTOCOL_VERSION nextSeq], nextSeq))
  | .Handshake _ => none
  | .HandshakeAck _ => none
  | .Heartbeat _ => none

/-- Embedding of `Skeleton::run`'s loop: `while let Ok(msg) = recv()`. A `recv`
error (or the stream's end) exits the loop and `run` returns `Ok(())` — the
error is not surfaced. Engine errors propagate via `?`. Returns all messages
sent. `none` marks a stream hitting a message variant absent from the source
match. -/
def skeletonRun (eng : EngApi) (nextSeq : Nat) :
    Inbound → Option (Except SkelError (List Message))
  | [] => some (.ok [])
  | .error _ :: _ => some (.ok [])
  | .ok msg :: rest =>
    match skeletonStep eng nextSeq msg with
    | none => none
    | some (.error e) => some (.error e)
    | some (.ok (sent, nextSeq2)) =>
      match skeletonRun eng nextSeq2 rest with
      | none => none
      | some (.error e) => some (.error e)
      | some (.ok sentRest) => some (.ok (sent ++ sentRest))

/-- A concrete trivial engine used for witnesses and counterexamples. -/
def dummyEngine : EngApi where
  makeGuess := fun _ _ => .ok .Hit
  getShipStatus := fun _ => .ok ⟨[], false, none⟩
  syncState := fun _ => .ok ()
  status := .InProgress

/-- A concrete core-engine function used for witnesses. -/
def dummyCore : Nat → Nat → Except EngineErr CGuessResult :=
  fun _ _ => .ok .Hit

/-! ### InMemoryTransport (`src/transport/in_memory.rs`) -/

/-- One direction's shared state (`SharedState`): a queue and a closed flag. -/
structure SharedState where
  queue : List Message
  closed : Bool
deriving DecidableEq, Repr

/-- State of an `InMemoryTransport::pair()`: the two shared queues (`state1`
carries B-to-A traffic, `state2` A-to-B) and each half's own `shutdown` flag.
Half A has `recv_state = s1`, `send_state = s2`; half B the reverse. -/
structure PairState where
  s1 : SharedState
  s2 : SharedState
  shutA : Bool
  shutB : Bool
deriving DecidableEq, Repr

/-- Initial state of `InMemoryTransport::pair()`. -/
def pairInit : PairState :=
  ⟨⟨[], false⟩, ⟨[], false⟩, false, false⟩

/-- `shutdown` on half A: set its own flag and mark its send side (`s2`) closed. -/
def shutdownA (st : PairState) : PairState :=
  { st with shutA := true, s2 := { st.s2 with closed := true } }

/-- `shutdown` on half B: set its own flag and mark its send side (`s1`) closed. -/
def shutdownB (st : PairState) : PairState :=
  { st with shutB := true, s1 := { st.s1 with closed := true } }

/-- `Drop` of half A: mark its send side (`s2`) closed. -/
def dropA (st : PairState) : PairState :=
  { st with s2 := { st.s2 with closed := true } }

/-- `Drop` of half B: mark its send side (`s1`) closed. -/
def dropB (st : PairState) : PairState :=
  { st with s1 := { st.s1 with closed := true } }

/-- Errors of `InMemoryTransport::send`, by distinguishable message. -/
inductive ChanError where
  | shutDown
  | closedByPeer
deriving DecidableEq, Repr

/-- Embedding of `InMemoryTransport::send` on half A: fail if this half was
shut down, fail if its send-side `closed` flag is set, otherwise enqueue into
`s2` and succeed immediately. -/
def sendA (msg : Message) (st : PairState) : Except ChanError PairState :=
  if st.shutA then .error .shutDown
  else if st.s2.closed then .error .closedByPeer
  else .ok { st with s2 := { st.s2 with queue := st.s2.queue ++ [msg] } }

/-- Embedding of `InMemoryTransport::send` on half B (symmetric, into `s1`). -/
def sendB (msg : Message) (st : PairState) : Except ChanError PairState :=
  if st.shutB then .error .shutDown
  else if st.s1.closed then .error .closedByPeer
  else .ok { st with s1 := { st.s1 with queue := st.s1.queue ++ [msg] } }

/-- A concrete `Sync` message exercising every nested payload type, used to
witness the round-trip theorem. The ship name is the byte list of `"C"`. -/
def sampleSyncMessage : Message :=
  .Sync 1 0
    ⟨⟨⟨List.replicate 5 ⟨[67], false, some (1, 2, .Horizontal)⟩, ⟨3⟩, ⟨0⟩, ⟨0⟩⟩,
      ⟨⟨0⟩, ⟨1⟩⟩⟩,
      [true, false, true, true, true]⟩

/-! ### Round-trip lemmas for the wire primitives -/

/-- Little-endian integers round-trip when the value fits in `k` bytes. -/
theorem decodeLE_encodeLE (k : Nat) : ∀ (n : Nat) (rest : List Nat), n < 256 ^ k →
    decodeLE k (encodeLE k n ++ rest) = some (n, rest) := by
  induction k with
  | zero =>
    intro n rest h
    simp only [pow_zero, Nat.lt_one_iff] at h
    subst h
    simp [encodeLE, decodeLE]
  | succ k ih =>
    intro n rest h
    have hdiv : n / 256 < 256 ^ k := by
      rw [Nat.div_lt_iff_lt_mul (by norm_num : 0 < 256)]
      calc n < 256 ^ (k + 1) := h
        _ = 256 ^ k * 256 := by ring
    have hrec := ih (n / 256) rest hdiv
    show (match decodeLE k (encodeLE k (n / 256) ++ rest) with
      | some (m, r) => some (n % 256 + 256 * m, r)
      | none => none) = some (n, rest)
    rw [hrec]
    show some (n % 256 + 256 * (n / 256), rest) = some (n, rest)
    simp only [Option.some.injEq, Prod.mk.injEq, and_true]
    omega

/-- Booleans round-trip. -/
theorem decodeBool_encodeBool (b : Bool) (rest : List Nat) :
    decodeBool (encodeBool b ++ rest) = some (b, rest) := by
  cases b <;> simp [encodeBool, decodeBool]

/-- Byte strings round-trip when the length fits in the `u64` length field. -/
theorem decodeBytes_encodeBytes (s rest : List Nat) (h : s.length < 2 ^ 64) :
    decodeBytes (encodeBytes s ++ rest) = some (s, rest) := by
  have h64 : s.length < 256 ^ 8 := by norm_num at h ⊢; omega
  simp only [encodeBytes, decodeBytes, List.append_assoc,
    decodeLE_encodeLE 8 s.length (s ++ rest) h64]
  simp [List.take_left, List.drop_left]

/-- Options round-trip given a round-tripping component codec. -/
theorem decodeOption_encodeOption (f : α → List Nat)
    (p : List Nat → Option (α × List Nat)) (o : Option α) (rest : List Nat)
    (h : ∀ a, o = some a → p (f a ++ rest) = some (a, rest)) :
    decodeOption p (encodeOption f o ++ rest) = some (o, rest) := by
  cases o with
  | none => simp [encodeOption, decodeOption]
  | some a => simp [encodeOption, decodeOption, h a rfl]

/-- Element-wise lists round-trip given a round-tripping element codec. -/
theorem decodeN_encodeList (f : α → List Nat) (p : List Nat → Option (α × List Nat))
    (xs : List α)
    (h : ∀ a r, a ∈ xs → p (f a ++ r) = some (a, r)) :
    ∀ rest, decodeN p xs.length (encodeList f xs ++ rest) = some (xs, rest) := by
  induction xs with
  | nil => intro rest; simp [encodeList, decodeN]
  | cons a as ih =>
    intro rest
    simp only [encodeList, List.length_cons, decodeN, List.append_assoc,
      h a (encodeList f as ++ rest) (by simp)]
    rw [ih (fun b r hb => h b r (by simp [hb])) rest]

/-- Orientations round-trip. -/
theorem decodeOrientation_encode (o : Orientation) (rest : List Nat) :
    decodeOrientation (encodeOrientation o ++ rest) = some (o, rest) := by
  have h0 := decodeLE_encodeLE 4 0 rest (by norm_num)
  have h1 := decodeLE_encodeLE 4 1 rest (by norm_num)
  cases o <;> simp [decodeOrientation, encodeOrientation, h0, h1]

/-- Domain game statuses round-trip. -/
theorem decodeDGameStatus_encode (st : DGameStatus) (rest : List Nat) :
    decodeDGameStatus (encodeDGameStatus st ++ rest) = some (st, rest) := by
  have h0 := decodeLE_encodeLE 4 0 rest (by norm_num)
  have h1 := decodeLE_encodeLE 4 1 rest (by norm_num)
  have h2 := decodeLE_encodeLE 4 2 rest (by norm_num)
  cases st <;> simp [decodeDGameStatus, encodeDGameStatus, h0, h1, h2]

/-- Domain guess results round-trip for valid values. -/
theorem decodeDGuessResult_encode (res : DGuessResult) (rest : List Nat)
    (h : res.valid = true) :
    decodeDGuessResult (encodeDGuessResult res ++ rest) = some (res, rest) := by
  have h0 := decodeLE_encodeLE 4 0 rest (by norm_num)
  have h1 := decodeLE_encodeLE 4 1 rest (by norm_num)
  cases res with
  | Hit => simp [decodeDGuessResult, encodeDGuessResult, h0]
  | Miss => simp [decodeDGuessResult, encodeDGuessResult, h1]
  | Sink name =>
    have hlen : name.length < 2 ^ 64 := by
      simp [DGuessResult.valid, validBytes] at h
      exact h.2
    have h2 := decodeLE_encodeLE 4 2 (encodeBytes name ++ rest) (by norm_num)
    simp [decodeDGuessResult, encodeDGuessResult, h2,
      decodeBytes_encodeBytes name rest hlen]

/-- Positions with `u8` coordinates round-trip for valid values. -/
theorem decodePos8_encode (p : Nat × Nat × Orientation) (rest : List Nat)
    (h : validPos8 p = true) :
    decodePos8 (encodePos8 p ++ rest) = some (p, rest) := by
  obtain ⟨a, b, o⟩ := p
  simp only [validPos8, Bool.and_eq_true, decide_eq_true_eq] at h
  have ha := decodeLE_encodeLE 1 a
    (encodeLE 1 b ++ (encodeOrientation o ++ rest)) (by simpa using h.1)
  have hb := decodeLE_encodeLE 1 b (encodeOrientation o ++ rest) (by simpa using h.2)
  simp [encodePos8, decodePos8, ha, hb, decodeOrientation_encode]

/-- Positions with `usize` coordinates round-trip for valid values. -/
theorem decodePosUsize_encode (p : Nat × Nat × Orientation) (rest : List Nat)
    (h : validPosUsize p = true) :
    decodePosUsize (encodePosUsize p ++ rest) = some (p, rest) := by
  obtain ⟨a, b, o⟩ := p
  simp only [validPosUsize, Bool.and_eq_true, decide_eq_true_eq] at h
  have ha : a < 256 ^ 8 := by norm_num at h ⊢; omega
  have hb : b < 256 ^ 8 := by norm_num at h ⊢; omega
  have ha2 := decodeLE_encodeLE 8 a (encodeLE 8 b ++ (encodeOrientation o ++ rest)) ha
  have hb2 := decodeLE_encodeLE 8 b (encodeOrientation o ++ rest) hb
  simp [encodePosUsize, decodePosUsize, ha2, hb2, decodeOrientation_encode]

/-- Domain ships round-trip for valid values. -/
theorem decodeDShip_encode (sh : DShip) (rest : List Nat) (h : sh.valid = true) :
    decodeDShip (encodeDShip sh ++ rest) = some (sh, rest) := by
  obtain ⟨name, sunk, pos⟩ := sh
  simp only [DShip.valid, Bool.and_eq_true] at h
  have hlen : name.length < 2 ^ 64 := by
    have := h.1
    simp [validBytes] at this
    exact this.2
  have hname := decodeBytes_encodeBytes name
    (encodeBool sunk ++ (encodeOption encodePos8 pos ++ rest)) hlen
  have hsunk := decodeBool_encodeBool sunk (encodeOption encodePos8 pos ++ rest)
  have hpos : decodeOption decodePos8 (encodeOption encodePos8 pos ++ rest) =
      some (pos, rest) := by
    refine decodeOption_encodeOption _ _ _ _ (fun a ha => ?_)
    subst ha
    refine decodePos8_encode a rest ?_
    have := h.2
    simpa [Option.all] using this
  simp [encodeDShip, decodeDShip, hname, hsunk, hpos]

/-- Bitboards round-trip for valid (`u128`-bounded) values. -/
theorem decodeBitBoard_encode (bb : BitBoard) (rest : List Nat)
    (h : bb.valid = true) :
    decodeBitBoard (encodeBitBoard bb ++ rest) = some (bb, rest) := by
  obtain ⟨bits⟩ := bb
  simp only [BitBoard.valid, decide_eq_true_eq] at h
  have hb : bits < 256 ^ 16 := by norm_num at h ⊢; omega
  simp [encodeBitBoard, decodeBitBoard, decodeLE_encodeLE 16 bits rest hb]

/-- Ship states round-trip for valid values. -/
theorem decodeShipState_encode (st : ShipState) (rest : List Nat)
    (h : st.valid = true) :
    decodeShipState (encodeShipState st ++ rest) = some (st, rest) := by
  obtain ⟨name, sunk, pos⟩ := st
  simp only [ShipState.valid, Bool.and_eq_true] at h
  have hlen : name.length < 2 ^ 64 := by
    have := h.1
    simp [validBytes] at this
    exact this.2
  have hname := decodeBytes_encodeBytes name
    (encodeBool sunk ++ (encodeOption encodePosUsize pos ++ rest)) hlen
  have hsunk := decodeBool_encodeBool sunk (encodeOption encodePosUsize pos ++ rest)
  have hpos : decodeOption decodePosUsize (encodeOption encodePosUsize pos ++ rest) =
      some (pos, rest) := by
    refine decodeOption_encodeOption _ _ _ _ (fun a ha => ?_)
    subst ha
    refine decodePosUsize_encode a rest ?_
    have := h.2
    simpa [Option.all] using this
  simp [encodeShipState, decodeShipState, hname, hsunk, hpos]

/-- Board states round-trip for valid values. -/
theorem decodeBoardState_encode (b : BoardState) (rest : List Nat)
    (h : b.valid = true) :
    decodeBoardState (encodeBoardState b ++ rest) = some (b, rest) := by
  obtain ⟨sts, sm, hi, mi⟩ := b
  simp only [BoardState.valid, Bool.and_eq_true, beq_iff_eq, List.all_eq_true] at h
  obtain ⟨⟨⟨⟨hlen, hall⟩, hsm⟩, hhi⟩, hmi⟩ := h
  have hsts : decodeN decodeShipState 5
      (encodeList encodeShipState sts ++ (encodeBitBoard sm ++
        (encodeBitBoard hi ++ (encodeBitBoard mi ++ rest)))) =
      some (sts, encodeBitBoard sm ++ (encodeBitBoard hi ++ (encodeBitBoard mi ++ rest))) := by
    rw [← hlen]
    exact decodeN_encodeList _ _ sts
      (fun a r ha => decodeShipState_encode a r (hall a ha)) _
  simp [encodeBoardState, decodeBoardState, hsts,
    decodeBitBoard_encode sm _ hsm, decodeBitBoard_encode hi _ hhi,
    decodeBitBoard_encode mi _ hmi]

/-- Guess board states round-trip for valid values. -/
theorem decodeGuessBoardState_encode (g : GuessBoardState) (rest : List Nat)
    (h : g.valid = true) :
    decodeGuessBoardState (encodeGuessBoardState g ++ rest) = some (g, rest) := by
  obtain ⟨hi, mi⟩ := g
  simp only [GuessBoardState.valid, Bool.and_eq_true] at h
  simp [encodeGuessBoardState, decodeGuessBoardState,
    decodeBitBoard_encode hi _ h.1, decodeBitBoard_encode mi _ h.2]

/-- Game states round-trip for valid values. -/
theorem decodeGameState_encode (g : GameState) (rest : List Nat)
    (h : g.valid = true) :
    decodeGameState (encodeGameState g ++ rest) = some (g, rest) := by
  obtain ⟨b, gs⟩ := g
  simp only [GameState.valid, Bool.and_eq_true] at h
  simp [encodeGameState, decodeGameState,
    decodeBoardState_encode b _ h.1, decodeGuessBoardState_encode gs _ h.2]

/-- Sync payloads round-trip for valid values. -/
theorem decodeSyncPayload_encode (p : SyncPayload) (rest : List Nat)
    (h : p.valid = true) :
    decodeSyncPayload (encodeSyncPayload p ++ rest) = some (p, rest) := by
  obtain ⟨g, bs⟩ := p
  simp only [SyncPayload.valid, Bool.and_eq_true, beq_iff_eq] at h
  have hbs : decodeN decodeBool 5 (encodeList encodeBool bs ++ rest) =
      some (bs, rest) := by
    rw [← h.2]
    exact decodeN_encodeList _ _ bs
      (fun a r _ => decodeBool_encodeBool a r) rest
  simp [encodeSyncPayload, decodeSyncPayload,
    decodeGameState_encode g _ h.1, hbs]

/-- A `(version, seq)` header round-trips when both fields fit their widths. -/
theorem decodeVerSeq_encode (v sq : Nat) (rest : List Nat)
    (hv : v < 256) (hs : sq < 2 ^ 64) :
    decodeVerSeq (encodeLE 1 v ++ (encodeLE 8 sq ++ rest)) = some ((v, sq), rest) := by
  have hs2 : sq < 256 ^ 8 := by norm_num at hs ⊢; omega
  have h1 := decodeLE_encodeLE 1 v (encodeLE 8 sq ++ rest) (by simpa using hv)
  have h8 := decodeLE_encodeLE 8 sq rest hs2
  simp [decodeVerSeq, h1, h8]

/-- Messages round-trip with arbitrary trailing bytes, for valid values. -/
theorem decodeMessage_encode (m : Message) (rest : List Nat) (h : m.valid = true) :
    decodeMessage (encodeMessage m ++ rest) = some (m, rest) := by
  cases m with
  | Handshake v =>
    simp only [Message.valid, decide_eq_true_eq] at h
    have ht := decodeLE_encodeLE 4 0 (encodeLE 1 v ++ rest) (by norm_num)
    have hv := decodeLE_encodeLE 1 v rest (by simpa using h)
    simp [encodeMessage, decodeMessage, ht, hv]
  | HandshakeAck v =>
    simp only [Message.valid, decide_eq_true_eq] at h
    have ht := decodeLE_encodeLE 4 1 (encodeLE 1 v ++ rest) (by norm_num)
    have hv := decodeLE_encodeLE 1 v rest (by simpa using h)
    simp [encodeMessage, decodeMessage, ht, hv]
  | Guess v sq x y =>
    simp only [Message.valid, Bool.and_eq_true, decide_eq_true_eq] at h
    obtain ⟨⟨⟨hv, hs⟩, hx⟩, hy⟩ := h
    have ht := decodeLE_encodeLE 4 2
      (encodeLE 1 v ++ (encodeLE 8 sq ++ (encodeLE 1 x ++ (encodeLE 1 y ++ rest))))
      (by norm_num)
    have hvs := decodeVerSeq_encode v sq (encodeLE 1 x ++ (encodeLE 1 y ++ rest)) hv hs
    have hx2 := decodeLE_encodeLE 1 x (encodeLE 1 y ++ rest) (by simpa using hx)
    have hy2 := decodeLE_encodeLE 1 y rest (by simpa using hy)
    simp [encodeMessage, decodeMessage, ht, hvs, hx2, hy2]
  | StatusReq v sq =>
    simp only [Message.valid, Bool.and_eq_true, decide_eq_true_eq] at h
    have ht := decodeLE_encodeLE 4 3 (encodeLE 1 v ++ (encodeLE 8 sq ++ rest))
      (by norm_num)
    have hvs := decodeVerSeq_encode v sq rest h.1 h.2
    simp [encodeMessage, decodeMessage, ht, hvs]
  | StatusResp v sq res =>
    simp only [Message.valid, Bool.and_eq_true, decide_eq_true_eq] at h
    obtain ⟨⟨hv, hs⟩, hres⟩ := h
    have ht := decodeLE_encodeLE 4 4
      (encodeLE 1 v ++ (encodeLE 8 sq ++ (encodeDGuessResult res ++ rest)))
      (by norm_num)
    have hvs := decodeVerSeq_encode v sq (encodeDGuessResult res ++ rest) hv hs
    simp [encodeMessage, decodeMessage, ht, hvs,
      decodeDGuessResult_encode res rest hres]
  | Sync v sq payload =>
    simp only [Message.valid, Bool.and_eq_true, decide_eq_true_eq] at h
    obtain ⟨⟨hv, hs⟩, hp⟩ := h
    have ht := decodeLE_encodeLE 4 5
      (encodeLE 1 v ++ (encodeLE 8 sq ++ (encodeSyncPayload payload ++ rest)))
      (by norm_num)
    have hvs := decodeVerSeq_encode v sq (encodeSyncPayload payload ++ rest) hv hs
    simp [encodeMessage, decodeMessage, ht, hvs,
      decodeSyncPayload_encode payload rest hp]
  | ShipStatusReq v sq id =>
    simp only [Message.valid, Bool.and_eq_true, decide_eq_true_eq] at h
    obtain ⟨⟨hv, hs⟩, hid⟩ := h
    have hid2 : id < 256 ^ 8 := by norm_num at hid ⊢; omega
    have ht := decodeLE_encodeLE 4 6
      (encodeLE 1 v ++ (encodeLE 8 sq ++ (encodeLE 8 id ++ rest)))
      (by norm_num)
    have hvs := decodeVerSeq_encode v sq (encodeLE 8 id ++ rest) hv hs
    have hid3 := decodeLE_encodeLE 8 id rest hid2
    simp [encodeMessage, decodeMessage, ht, hvs, hid3]
  | ShipStatusResp v sq ship =>
    simp only [Message.valid, Bool.and_eq_true, decide_eq_true_eq] at h
    obtain ⟨⟨hv, hs⟩, hship⟩ := h
    have ht := decodeLE_encodeLE 4 7
      (encodeLE 1 v ++ (encodeLE 8 sq ++ (encodeDShip ship ++ rest)))
      (by norm_num)
    have hvs := decodeVerSeq_encode v sq (encodeDShip ship ++ rest) hv hs
    simp [encodeMessage, decodeMessage, ht, hvs, decodeDShip_encode ship rest hship]
  | GameStatusReq v sq =>
    simp only [Message.valid, Bool.and_eq_true, decide_eq_true_eq] at h
    have ht := decodeLE_encodeLE 4 8 (encodeLE 1 v ++ (encodeLE 8 sq ++ rest))
      (by norm_num)
    have hvs := decodeVerSeq_encode v sq rest h.1 h.2
    simp [encodeMessage, decodeMessage, ht, hvs]
  | GameStatusResp v sq st =>
    simp only [Message.valid, Bool.and_eq_true, decide_eq_true_eq] at h
    have ht := decodeLE_encodeLE 4 9
      (encodeLE 1 v ++ (encodeLE 8 sq ++ (encodeDGameStatus st ++ rest)))
      (by norm_num)
    have hvs := decodeVerSeq_encode v sq (encodeDGameStatus st ++ rest) h.1 h.2
    simp [encodeMessage, decodeMessage, ht, hvs, decodeDGameStatus_encode st rest]
  | Ack v sq =>
    simp only [Message.valid, Bool.and_eq_true, decide_eq_true_eq] at h
    have ht := decodeLE_encodeLE 4 10 (encodeLE 1 v ++ (encodeLE 8 sq ++ rest))
      (by norm_num)
    have hvs := decodeVerSeq_encode v sq rest h.1 h.2
    simp [encodeMessage, decodeMessage, ht, hvs]
  | Heartbeat v =>
    simp only [Message.valid, decide_eq_true_eq] at h
    have ht := decodeLE_encodeLE 4 11 (encodeLE 1 v ++ rest) (by norm_num)
    have hv := decodeLE_encodeLE 1 v rest (by simpa using h)
    simp [encodeMessage, decodeMessage, ht, hv]

/-- C3: for every valid `Message` value `m`, of every variant (`Handshake`,
`HandshakeAck`, `Guess`, `StatusReq`, `StatusResp`, `Sync`, `ShipStatusReq`,
`ShipStatusResp`, `GameStatusReq`, `GameStatusResp`, `Ack`, `Heartbeat`),
deserializing the serialization of `m` yields a value equal to `m` (and
consumes the whole encoding). -/
theorem message_roundtrip (m : Message) (h : m.valid = true) :
    decodeMessage (encodeMessage m) = some (m, []) := by
  have := decodeMessage_encode m [] h
  simpa using this

/-- Witness for C3: the round trip evaluated on a concrete `Sync` message
containing a full game-state payload. -/
theorem message_roundtrip_witness :
    sampleSyncMessage.valid = true ∧
      decodeMessage (encodeMessage sampleSyncMessage) = some (sampleSyncMessage, []) :=
  ⟨by decide, message_roundtrip sampleSyncMessage (by decide)⟩

/-- C5: after reading the 4-byte big-endian length, `TcpTransport::recv` fails
with a "too large" error when the declared length exceeds the configured
maximum, leaving the payload bytes unconsumed; a declared length of zero fails
with an invalid-length error (likewise without touching the payload); and these
errors are distinguishable from connection-closed, deserialization-failure and
timeout errors. -/
theorem tcp_recv_length_validation :
    (∀ (maxSize b0 b1 b2 b3 : Nat) (rest : List Nat),
      ((b0 * 256 + b1) * 256 + b2) * 256 + b3 > maxSize →
      tcpRecvModel maxSize (b0 :: b1 :: b2 :: b3 :: rest) =
        (.error (.msgTooLarge (((b0 * 256 + b1) * 256 + b2) * 256 + b3) maxSize), rest))
    ∧ (∀ (maxSize : Nat) (rest : List Nat),
      tcpRecvModel maxSize (0 :: 0 :: 0 :: 0 :: rest) = (.error .invalidLength, rest))
    ∧ (∀ len max, TcpError.msgTooLarge len max ≠ .connectionClosed)
    ∧ (∀ len max, TcpError.msgTooLarge len max ≠ .deserializationFailure)
    ∧ (∀ len max, TcpError.msgTooLarge len max ≠ .timeout)
    ∧ TcpError.invalidLength ≠ .connectionClosed
    ∧ TcpError.invalidLength ≠ .deserializationFailure
    ∧ TcpError.invalidLength ≠ .timeout
    ∧ (∀ len max, TcpError.msgTooLarge len max ≠ .invalidLength) := by
  refine ⟨?_, ?_, ?_, ?_, ?_, ?_, ?_, ?_, ?_⟩
  · intro maxSize b0 b1 b2 b3 rest h
    simp [tcpRecvModel, h]
  · intro maxSize rest
    simp [tcpRecvModel]
  all_goals simp

/-- Witness for C5: a length prefix of `0xFFFFFFFF` (bytes `255 255 255 255`)
against the configured `MAX_MESSAGE_SIZE` is rejected as too large with the
payload untouched, and a zero length prefix is rejected as invalid. -/
theorem tcp_recv_length_validation_witness :
    (((255 * 256 + 255) * 256 + 255) * 256 + 255 > MAX_MESSAGE_SIZE)
    ∧ tcpRecvModel MAX_MESSAGE_SIZE (255 :: 255 :: 255 :: 255 :: [7, 7, 7]) =
        (.error (.msgTooLarge 4294967295 MAX_MESSAGE_SIZE), [7, 7, 7])
    ∧ tcpRecvModel MAX_MESSAGE_SIZE (0 :: 0 :: 0 :: 0 :: [7, 7, 7]) =
        (.error .invalidLength, [7, 7, 7]) :=
  ⟨by decide,
    tcp_recv_length_validation.1 MAX_MESSAGE_SIZE 255 255 255 255 [7, 7, 7] (by decide),
    tcp_recv_length_validation.2.1 MAX_MESSAGE_SIZE [7, 7, 7]⟩

/-- Little-endian encodings are exactly `k` bytes long. -/
theorem encodeLE_length (k : Nat) : ∀ n, (encodeLE k n).length = k := by
  induction k with
  | zero => intro n; simp [encodeLE]
  | succ k ih => intro n; simp [encodeLE, ih]

/-- Counterexample to C10 as stated: the size check at tcp.rs:133 compares
`data.len() as u32`, truncating the length modulo `2^32`. A `StatusResp`
carrying a sink name of `2^32 - 25` bytes serializes to exactly `2^32` bytes —
far above `MAX_MESSAGE_SIZE` — yet its truncated length is `0`, so `send`
accepts it and writes bytes to the stream instead of failing before any write. -/
theorem tcp_send_truncation_counterexample :
    (encodeMessage (.StatusResp 1 0 (.Sink (List.replicate 4294967271 65)))).length =
      4294967296
    ∧ (4294967296 : Nat) > MAX_MESSAGE_SIZE
    ∧ (tcpSendModel MAX_MESSAGE_SIZE
        (.StatusResp 1 0 (.Sink (List.replicate 4294967271 65)))).1 = .ok ()
    ∧ (tcpSendModel MAX_MESSAGE_SIZE
        (.StatusResp 1 0 (.Sink (List.replicate 4294967271 65)))).2 ≠ [] := by
  have hlen : (encodeMessage (.StatusResp 1 0
      (.Sink (List.replicate 4294967271 65)))).length = 4294967296 := by
    simp only [encodeMessage, encodeDGuessResult, encodeBytes, List.length_append,
      encodeLE_length, List.length_replicate]
  refine ⟨hlen, by norm_num [MAX_MESSAGE_SIZE], ?_, ?_⟩
  · simp only [tcpSendModel, hlen]
    rw [if_neg (by norm_num [MAX_MESSAGE_SIZE])]
  · simp only [tcpSendModel, hlen]
    rw [if_neg (by norm_num [MAX_MESSAGE_SIZE])]
    exact List.cons_ne_nil _ _

/-- C10 (amended): `TcpTransport::send` enforces `max_message_size` on the
outgoing side through the truncating cast `data.len() as u32`: when the
serialized length reduced modulo `2^32` exceeds the configured maximum, `send`
returns a "Message too large" error (formatting the untruncated length) before
writing any byte; when the truncated length is within the bound the message is
written — so a serialization of length `≥ 2^32` whose low 32 bits are under
the limit is not rejected. -/
theorem tcp_send_size_bound :
    (∀ (maxSize : Nat) (msg : Message), (encodeMessage msg).length % 2 ^ 32 > maxSize →
      tcpSendModel maxSize msg =
        (.error (.msgTooLarge (encodeMessage msg).length maxSize), []))
    ∧ (∀ (maxSize : Nat) (msg : Message), (encodeMessage msg).length % 2 ^ 32 ≤ maxSize →
      (tcpSendModel maxSize msg).1 = .ok () ∧ (tcpSendModel maxSize msg).2 ≠ []) := by
  constructor
  · intro maxSize msg h
    have h2 : maxSize < (encodeMessage msg).length % 4294967296 := by simpa using h
    simp [tcpSendModel, h2]
  · intro maxSize msg h
    have hc : ¬ (maxSize < (encodeMessage msg).length % 4294967296) := by
      simpa using not_lt.mpr h
    exact ⟨by simp [tcpSendModel, hc], by simp [tcpSendModel, hc]⟩

/-- Witness for C10 (amended): with a configured maximum of 2 bytes, a
`Heartbeat` message (5 encoded bytes, truncated length 5) is rejected with
nothing written; against the default `MAX_MESSAGE_SIZE` the same message
passes the check and is written. -/
theorem tcp_send_size_bound_witness :
    ((encodeMessage (.Heartbeat 1)).length % 2 ^ 32 > 2)
    ∧ tcpSendModel 2 (.Heartbeat 1) =
        (.error (.msgTooLarge (encodeMessage (.Heartbeat 1)).length 2), [])
    ∧ ((encodeMessage (.Heartbeat 1)).length % 2 ^ 32 ≤ MAX_MESSAGE_SIZE)
    ∧ (tcpSendModel MAX_MESSAGE_SIZE (.Heartbeat 1)).1 = .ok ()
    ∧ (tcpSendModel MAX_MESSAGE_SIZE (.Heartbeat 1)).2 ≠ [] :=
  ⟨by decide,
    tcp_send_size_bound.1 2 (.Heartbeat 1) (by decide),
    by decide,
    (tcp_send_size_bound.2 MAX_MESSAGE_SIZE (.Heartbeat 1) (by decide)).1,
    (tcp_send_size_bound.2 MAX_MESSAGE_SIZE (.Heartbeat 1) (by decide)).2⟩

/-- The receive loop of `HeartbeatTransport` never delivers a heartbeat to its
caller. -/
theorem heartbeatRecv_no_heartbeat :
    ∀ (inbound : List (Except TransportErr Message)) m r es,
      heartbeatRecv inbound = .ok (m, r, es) → m.isHeartbeat = false := by
  intro inbound
  induction inbound with
  | nil =>
    intro m r es h
    simp [heartbeatRecv] at h
  | cons hd tl ih =>
    intro m r es h
    match hd with
    | .error e => simp [heartbeatRecv] at h
    | .ok msg =>
      cases msg
      case Heartbeat v =>
        by_cases hv : v = PROTOCOL_VERSION
        · subst hv
          simp only [heartbeatRecv, if_pos rfl] at h
          cases hr : heartbeatRecv tl with
          | error e => rw [hr] at h; simp at h
          | ok t =>
            obtain ⟨m2, r2, es2⟩ := t
            rw [hr] at h
            have h2 : (Except.ok (m2, r2, Message.Heartbeat PROTOCOL_VERSION :: es2) :
                Except HBError (Message × List (Except TransportErr Message) × List Message)) =
              .ok (m, r, es) := h
            simp only [Except.ok.injEq, Prod.mk.injEq] at h2
            obtain ⟨h1, -, -⟩ := h2
            subst h1
            exact ih m2 r2 es2 hr
        · simp [heartbeatRecv, hv] at h
      all_goals simp only [heartbeatRecv, Except.ok.injEq, Prod.mk.injEq] at h
      all_goals obtain ⟨h1, -, -⟩ := h
      all_goals subst h1
      all_goals rfl

/-- C4: with heartbeats enabled, `HeartbeatTransport::recv` never returns a
`Heartbeat` to its caller: a version-matching inbound heartbeat is echoed back
on the inner transport and skipped, a version-mismatched heartbeat fails the
receive with a version-mismatch error, and the first non-heartbeat message is
returned unchanged (so heartbeats never reach the session logic that owns the
sequence counters). -/
theorem heartbeat_transparent :
    (∀ (inbound : List (Except TransportErr Message)) m r es,
      heartbeatRecv inbound = .ok (m, r, es) → m.isHeartbeat = false)
    ∧ (∀ rest, heartbeatRecv (.ok (.Heartbeat PROTOCOL_VERSION) :: rest) =
        (heartbeatRecv rest).map
          (fun t => (t.1, t.2.1, Message.Heartbeat PROTOCOL_VERSION :: t.2.2)))
    ∧ (∀ v rest, v ≠ PROTOCOL_VERSION →
        heartbeatRecv (.ok (.Heartbeat v) :: rest) =
          .error (.versionMismatch PROTOCOL_VERSION v))
    ∧ (∀ msg rest, msg.isHeartbeat = false →
        heartbeatRecv (.ok msg :: rest) = .ok (msg, rest, [])) := by
  refine ⟨heartbeatRecv_no_heartbeat, ?_, ?_, ?_⟩
  · intro rest
    simp only [heartbeatRecv, if_pos rfl]
    cases heartbeatRecv rest with
    | error e => simp [Except.map]
    | ok t => obtain ⟨m2, r2, es2⟩ := t; simp [Except.map]
  · intro v rest hv
    simp [heartbeatRecv, hv]
  · intro msg rest hmsg
    cases msg <;> simp_all [heartbeatRecv, Message.isHeartbeat]

/-- Witness for C4: one matching heartbeat followed by a `Guess` — the
heartbeat is echoed and skipped, the guess is delivered; a version-2 heartbeat
fails; a guess at the head is returned as-is. -/
theorem heartbeat_transparent_witness :
    (heartbeatRecv [.ok (.Heartbeat 1), .ok (.Guess 1 0 2 3)] =
      .ok (.Guess 1 0 2 3, [], [.Heartbeat 1]))
    ∧ (Message.Guess 1 0 2 3).isHeartbeat = false
    ∧ heartbeatRecv [.ok (.Heartbeat 2)] = .error (.versionMismatch 1 2)
    ∧ heartbeatRecv [.ok (.Guess 1 0 2 3)] = .ok (.Guess 1 0 2 3, [], []) :=
  ⟨by rfl,
    heartbeatRecv_no_heartbeat [.ok (.Heartbeat 1), .ok (.Guess 1 0 2 3)]
      (.Guess 1 0 2 3) [] [.Heartbeat 1] (by rfl),
    heartbeat_transparent.2.2.1 2 [] (by decide),
    heartbeat_transparent.2.2.2 (.Guess 1 0 2 3) [] (by rfl)⟩

/-- The accepted guess seqs of a successful receive loop run are consecutive
starting at the initial `expected_recv_seq`, and the final counter advanced by
exactly the number of accepted guesses. -/
theorem opponentRecvLoop_accepted (eng : Nat → Nat → Except EngineErr CGuessResult) :
    ∀ (inbound : Inbound) (e : Nat) (replies : List Message) (final : Nat)
      (accepted : List Nat),
      opponentRecvLoop eng e inbound = .ok (replies, final, accepted) →
      accepted = List.range' e accepted.length ∧ final = e + accepted.length := by
  intro inbound
  induction inbound with
  | nil =>
    intro e replies final accepted h
    simp only [opponentRecvLoop, Except.ok.injEq, Prod.mk.injEq] at h
    obtain ⟨-, h2, h3⟩ := h
    subst h2
    subst h3
    simp
  | cons hd tl ih =>
    intro e replies final accepted h
    match hd with
    | .error e2 => simp [opponentRecvLoop] at h
    | .ok msg =>
      cases msg
      case Guess v sq x y =>
        by_cases hv : v = PROTOCOL_VERSION
        · by_cases hsq : sq = e
          · subst hv
            subst hsq
            cases hr : eng x y with
            | error e2 => simp [opponentRecvLoop, opponentTurnStep, hr] at h
            | ok res =>
              cases hloop : opponentRecvLoop eng (sq + 1) tl with
              | error e2 => simp [opponentRecvLoop, opponentTurnStep, hr, hloop] at h
              | ok t =>
                obtain ⟨replies2, final2, accepted2⟩ := t
                simp only [opponentRecvLoop, opponentTurnStep, hr, hloop, ne_eq,
                  not_true_eq_false, if_false, ite_false,
                  Except.ok.injEq, Prod.mk.injEq] at h
                obtain ⟨-, hfin, hacc⟩ := h
                subst hfin
                subst hacc
                obtain ⟨ih1, ih2⟩ := ih (sq + 1) replies2 final2 accepted2 hloop
                constructor
                · simp only [List.length_cons, List.range'_succ]
                  rw [← ih1]
                · simp only [List.length_cons]
                  omega
          · simp [opponentRecvLoop, opponentTurnStep, hv, hsq] at h
        · simp [opponentRecvLoop, opponentTurnStep, hv] at h
      all_goals simp [opponentRecvLoop, opponentTurnStep] at h

/-- C1: in `PlayerNode`'s active loop, an inbound `Guess` is accepted only if
its version equals the negotiated protocol version and its seq equals
`expected_recv_seq` exactly; on acceptance the guess is applied to the engine,
a `StatusResp` echoing the same seq is sent back, and `expected_recv_seq`
increases by exactly one; a version mismatch or any out-of-order seq (ahead or
behind) terminates the session with a distinguishable error instead of
buffering, skipping or reordering; consequently the accepted seqs of any
successful run starting from `expected_recv_seq = 0` are exactly `0, 1, 2, …`
with no gaps or repeats. -/
theorem playernode_strict_sequencing :
    (∀ (eng : Nat → Nat → Except EngineErr CGuessResult) (e v sq x y : Nat) res,
      v = PROTOCOL_VERSION → sq = e → eng x y = .ok res →
      opponentTurnStep eng e (.Guess v sq x y) =
        .ok (.StatusResp PROTOCOL_VERSION sq (commonToDomain res), e + 1))
    ∧ (∀ (eng : Nat → Nat → Except EngineErr CGuessResult) (e v sq x y : Nat),
      v ≠ PROTOCOL_VERSION →
      opponentTurnStep eng e (.Guess v sq x y) =
        .error (.guessVersionMismatch PROTOCOL_VERSION v))
    ∧ (∀ (eng : Nat → Nat → Except EngineErr CGuessResult) (e v sq x y : Nat),
      v = PROTOCOL_VERSION → sq ≠ e →
      opponentTurnStep eng e (.Guess v sq x y) = .error (.guessOutOfOrder e sq))
    ∧ (∀ (eng : Nat → Nat → Except EngineErr CGuessResult) (e : Nat) (msg : Message),
      (∀ v sq x y, msg ≠ .Guess v sq x y) →
      opponentTurnStep eng e msg = .error .guessUnexpected)
    ∧ (∀ (eng : Nat → Nat → Except EngineErr CGuessResult) (inbound : Inbound)
        (replies : List Message) (final : Nat) (accepted : List Nat),
      opponentRecvLoop eng 0 inbound = .ok (replies, final, accepted) →
      accepted = List.range accepted.length ∧ final = accepted.length) := by
  refine ⟨?_, ?_, ?_, ?_, ?_⟩
  · intro eng e v sq x y res hv hsq hr
    subst hv
    subst hsq
    simp [opponentTurnStep, hr]
  · intro eng e v sq x y hv
    simp [opponentTurnStep, hv]
  · intro eng e v sq x y hv hsq
    subst hv
    simp [opponentTurnStep, hsq]
  · intro eng e msg hmsg
    cases msg
    case Guess v sq x y => exact absurd rfl (hmsg v sq x y)
    all_goals simp [opponentTurnStep]
  · intro eng inbound replies final accepted h
    obtain ⟨h1, h2⟩ := opponentRecvLoop_accepted eng inbound 0 replies final accepted h
    refine ⟨?_, by omega⟩
    rw [List.range_eq_range']
    simpa using h1

/-- Witness for C1: the step and the loop evaluated on concrete inputs — seq 0
accepted with an echoed `StatusResp` and counter 1, version 2 rejected, seq 1
when 0 is expected rejected, a non-guess rejected, and a two-guess run
accepting exactly seqs `[0, 1]`. -/
theorem playernode_strict_sequencing_witness :
    opponentTurnStep dummyCore 0 (.Guess 1 0 2 3) =
      .ok (.StatusResp PROTOCOL_VERSION 0 (commonToDomain .Hit), 1)
    ∧ opponentTurnStep dummyCore 0 (.Guess 2 0 2 3) =
        .error (.guessVersionMismatch 1 2)
    ∧ opponentTurnStep dummyCore 0 (.Guess 1 1 2 3) = .error (.guessOutOfOrder 0 1)
    ∧ opponentTurnStep dummyCore 0 (.Heartbeat 1) = .error .guessUnexpected
    ∧ ([0, 1] = List.range ([0, 1] : List Nat).length
        ∧ (2 : Nat) = ([0, 1] : List Nat).length) :=
  ⟨playernode_strict_sequencing.1 dummyCore 0 1 0 2 3 .Hit rfl rfl rfl,
    playernode_strict_sequencing.2.1 dummyCore 0 2 0 2 3 (by decide),
    playernode_strict_sequencing.2.2.1 dummyCore 0 1 1 2 3 rfl (by decide),
    playernode_strict_sequencing.2.2.2.1 dummyCore 0 (.Heartbeat 1)
      (by intro v sq x y h; cases h),
    playernode_strict_sequencing.2.2.2.2 dummyCore
      [.ok (.Guess 1 0 2 3), .ok (.Guess 1 1 4 5)]
      [.StatusResp 1 0 .Hit, .StatusResp 1 1 .Hit] 2 [0, 1] (by rfl)⟩

/-- C2: `PlayerNode::run` processes no sequenced message before a successful
handshake. The initiator accepts only a `HandshakeAck` carrying exactly
`PROTOCOL_VERSION` (a mismatched version and an unexpected message type give
distinguishable errors), the responder symmetrically accepts only a matching
`Handshake` and replies with `HandshakeAck`; and whenever the handshake fails,
`run` returns that error without the game loop ever executing. -/
theorem playernode_handshake_gating :
    (∀ rest : Inbound, handshakeModel true (.ok (.HandshakeAck PROTOCOL_VERSION) :: rest) =
      .ok ([.Handshake PROTOCOL_VERSION], rest))
    ∧ (∀ (v : Nat) (rest : Inbound), v ≠ PROTOCOL_VERSION →
      handshakeModel true (.ok (.HandshakeAck v) :: rest) =
        .error (.handshakeAckVersionMismatch PROTOCOL_VERSION v))
    ∧ (∀ (msg : Message) (rest : Inbound), (∀ v, msg ≠ .HandshakeAck v) →
      handshakeModel true (.ok msg :: rest) = .error .handshakeAckUnexpected)
    ∧ (∀ rest : Inbound, handshakeModel false (.ok (.Handshake PROTOCOL_VERSION) :: rest) =
      .ok ([.HandshakeAck PROTOCOL_VERSION], rest))
    ∧ (∀ (v : Nat) (rest : Inbound), v ≠ PROTOCOL_VERSION →
      handshakeModel false (.ok (.Handshake v) :: rest) =
        .error (.handshakeVersionMismatch PROTOCOL_VERSION v))
    ∧ (∀ (msg : Message) (rest : Inbound), (∀ v, msg ≠ .Handshake v) →
      handshakeModel false (.ok msg :: rest) = .error .handshakeUnexpected)
    ∧ (∀ (α : Type) (activeLoop : Inbound → Except PNError α) (firstMove : Bool)
        (inbound : Inbound) (e : PNError),
      handshakeModel firstMove inbound = .error e →
      runGated activeLoop firstMove inbound = .error e)
    ∧ (∀ v, PNError.handshakeAckVersionMismatch PROTOCOL_VERSION v ≠ .handshakeAckUnexpected)
    ∧ (∀ v, PNError.handshakeVersionMismatch PROTOCOL_VERSION v ≠ .handshakeUnexpected) := by
  refine ⟨?_, ?_, ?_, ?_, ?_, ?_, ?_, ?_, ?_⟩
  · intro rest
    simp [handshakeModel]
  · intro v rest hv
    simp [handshakeModel, hv]
  · intro msg rest hmsg
    cases msg
    case HandshakeAck v => exact absurd rfl (hmsg v)
    all_goals simp [handshakeModel]
  · intro rest
    simp [handshakeModel]
  · intro v rest hv
    simp [handshakeModel, hv]
  · intro msg rest hmsg
    cases msg
    case Handshake v => exact absurd rfl (hmsg v)
    all_goals simp [handshakeModel]
  · intro α activeLoop firstMove inbound e h
    simp [runGated, h]
  · intro v
    simp
  · intro v
    simp

/-- Witness for C2: concrete handshake exchanges — matching ack accepted,
version-2 ack rejected, a guess instead of an ack rejected with a different
error, the responder cases symmetrically, and a gated run on a failing
handshake returning the handshake error with the loop never run. -/
theorem playernode_handshake_gating_witness :
    handshakeModel true [.ok (.HandshakeAck 1)] = .ok ([.Handshake 1], [])
    ∧ handshakeModel true [.ok (.HandshakeAck 2)] =
        .error (.handshakeAckVersionMismatch 1 2)
    ∧ handshakeModel true [.ok (.Guess 1 0 2 3)] = .error .handshakeAckUnexpected
    ∧ handshakeModel false [.ok (.Handshake 1)] = .ok ([.HandshakeAck 1], [])
    ∧ handshakeModel false [.ok (.Handshake 2)] =
        .error (.handshakeVersionMismatch 1 2)
    ∧ handshakeModel false [.ok (.Heartbeat 1)] = .error .handshakeUnexpected
    ∧ runGated (fun _ => .ok ()) true [.ok (.HandshakeAck 2)] =
        .error (.handshakeAckVersionMismatch 1 2)
    ∧ PNError.handshakeAckVersionMismatch 1 2 ≠ .handshakeAckUnexpected
    ∧ PNError.handshakeVersionMismatch 1 2 ≠ .handshakeUnexpected :=
  ⟨playernode_handshake_gating.1 [],
    playernode_handshake_gating.2.1 2 [] (by decide),
    playernode_handshake_gating.2.2.1 (.Guess 1 0 2 3) [] (by intro v h; cases h),
    playernode_handshake_gating.2.2.2.1 [],
    playernode_handshake_gating.2.2.2.2.1 2 [] (by decide),
    playernode_handshake_gating.2.2.2.2.2.1 (.Heartbeat 1) [] (by intro v h; cases h),
    playernode_handshake_gating.2.2.2.2.2.2.1 Unit (fun _ => .ok ()) true
      [.ok (.HandshakeAck 2)] (.handshakeAckVersionMismatch 1 2) (by rfl),
    playernode_handshake_gating.2.2.2.2.2.2.2.1 2,
    playernode_handshake_gating.2.2.2.2.2.2.2.2 2⟩

/-- Counterexample to C6 as stated: with `next_seq = 5`, an inbound `Ack`
response carrying seq 3 is answered with `Ack{seq = 5}` — the skeleton's
current expected sequence — not with the received sequence 3, so "replies with
a generic Ack carrying the received (not the expected) sequence number" is
false for unrecognized (response-type) messages. -/
theorem skeleton_response_ack_counterexample :
    skeletonStep dummyEngine 5 (.Ack 1 3) = some (.ok ([.Ack 1 5], 5))
    ∧ Message.Ack 1 5 ≠ .Ack 1 3 :=
  ⟨rfl, by decide⟩

/-- C6 (amended): `Skeleton::run` replies to every request whose version
differs from `PROTOCOL_VERSION` or whose seq differs from the expected
`next_seq` with a generic `Ack` carrying the received sequence, leaving
`next_seq` unchanged and continuing its receive loop; it replies to the four
response-type messages with an `Ack` carrying its current `next_seq` (not the
received one), also without terminating; and it increments `next_seq` exactly
when a request is accepted and dispatched to the engine. -/
theorem skeleton_soft_rejection :
    (∀ (eng : EngApi) (sq v s x y : Nat), v ≠ PROTOCOL_VERSION ∨ s ≠ sq →
      skeletonStep eng sq (.Guess v s x y) = some (.ok ([.Ack PROTOCOL_VERSION s], sq)))
    ∧ (∀ (eng : EngApi) (sq v s : Nat), v ≠ PROTOCOL_VERSION ∨ s ≠ sq →
      skeletonStep eng sq (.StatusReq v s) = some (.ok ([.Ack PROTOCOL_VERSION s], sq)))
    ∧ (∀ (eng : EngApi) (sq v s : Nat), v ≠ PROTOCOL_VERSION ∨ s ≠ sq →
      skeletonStep eng sq (.GameStatusReq v s) = some (.ok ([.Ack PROTOCOL_VERSION s], sq)))
    ∧ (∀ (eng : EngApi) (sq v s id : Nat), v ≠ PROTOCOL_VERSION ∨ s ≠ sq →
      skeletonStep eng sq (.ShipStatusReq v s id) = some (.ok ([.Ack PROTOCOL_VERSION s], sq)))
    ∧ (∀ (eng : EngApi) (sq v s : Nat) p, v ≠ PROTOCOL_VERSION ∨ s ≠ sq →
      skeletonStep eng sq (.Sync v s p) = some (.ok ([.Ack PROTOCOL_VERSION s], sq)))
    ∧ (∀ (eng : EngApi) (sq v s : Nat) res,
      skeletonStep eng sq (.StatusResp v s res) =
        some (.ok ([.Ack PROTOCOL_VERSION sq], sq)))
    ∧ (∀ (eng : EngApi) (sq v s : Nat) ship,
      skeletonStep eng sq (.ShipStatusResp v s ship) =
        some (.ok ([.Ack PROTOCOL_VERSION sq], sq)))
    ∧ (∀ (eng : EngApi) (sq v s : Nat) st,
      skeletonStep eng sq (.GameStatusResp v s st) =
        some (.ok ([.Ack PROTOCOL_VERSION sq], sq)))
    ∧ (∀ (eng : EngApi) (sq v s : Nat),
      skeletonStep eng sq (.Ack v s) = some (.ok ([.Ack PROTOCOL_VERSION sq], sq)))
    ∧ (∀ (eng : EngApi) (sq x y : Nat) res, eng.makeGuess x y = .ok res →
      skeletonStep eng sq (.Guess PROTOCOL_VERSION sq x y) =
        some (.ok ([.StatusResp PROTOCOL_VERSION sq res], sq + 1)))
    ∧ (∀ (eng : EngApi) (sq v s x y : Nat) (rest : Inbound),
      v ≠ PROTOCOL_VERSION ∨ s ≠ sq →
      skeletonRun eng sq (.ok (.Guess v s x y) :: rest) =
        (skeletonRun eng sq rest).map
          (fun r => r.map (fun sent => .Ack PROTOCOL_VERSION s :: sent))) := by
  refine ⟨?_, ?_, ?_, ?_, ?_, ?_, ?_, ?_, ?_, ?_, ?_⟩
  · intro eng sq v s x y h
    rcases h with h | h <;> simp [skeletonStep, h]
  · intro eng sq v s h
    rcases h with h | h <;> simp [skeletonStep, h]
  · intro eng sq v s h
    rcases h with h | h <;> simp [skeletonStep, h]
  · intro eng sq v s id h
    rcases h with h | h <;> simp [skeletonStep, h]
  · intro eng sq v s p h
    rcases h with h | h <;> simp [skeletonStep, h]
  · intro eng sq v s res
    simp [skeletonStep]
  · intro eng sq v s ship
    simp [skeletonStep]
  · intro eng sq v s st
    simp [skeletonStep]
  · intro eng sq v s
    simp [skeletonStep]
  · intro eng sq x y res h
    simp [skeletonStep, h]
  · intro eng sq v s x y rest h
    have hstep : skeletonStep eng sq (.Guess v s x y) =
        some (.ok ([.Ack PROTOCOL_VERSION s], sq)) := by
      rcases h with h | h <;> simp [skeletonStep, h]
    simp only [skeletonRun, hstep]
    cases skeletonRun eng sq rest with
    | none => simp
    | some r =>
      cases r with
      | error e => simp [Except.map]
      | ok sent => simp [Except.map]

/-- Witness for C6 (amended): concrete evaluations — a seq-1 guess when 0 is
expected gets `Ack{seq = 1}` with `next_seq` still 0; an inbound `Ack`
response gets `Ack` carrying the current `next_seq` 5; an accepted guess is
dispatched and bumps `next_seq` to 1; and a run over a rejected guess followed
by stream end sends exactly that rejecting `Ack` and keeps running. -/
theorem skeleton_soft_rejection_witness :
    skeletonStep dummyEngine 0 (.Guess 1 1 2 3) = some (.ok ([.Ack 1 1], 0))
    ∧ skeletonStep dummyEngine 5 (.StatusResp 1 3 .Hit) = some (.ok ([.Ack 1 5], 5))
    ∧ skeletonStep dummyEngine 0 (.Guess 1 0 2 3) =
        some (.ok ([.StatusResp 1 0 .Hit], 1))
    ∧ skeletonRun dummyEngine 0 [.ok (.Guess 1 1 2 3)] = some (.ok [.Ack 1 1]) :=
  ⟨skeleton_soft_rejection.1 dummyEngine 0 1 1 2 3 (Or.inr (by decide)),
    skeleton_soft_rejection.2.2.2.2.2.1 dummyEngine 5 1 3 .Hit,
    skeleton_soft_rejection.2.2.2.2.2.2.2.2.2.1 dummyEngine 0 2 3 .Hit rfl,
    by
      have := skeleton_soft_rejection.2.2.2.2.2.2.2.2.2.2 dummyEngine 0 1 1 2 3 []
        (Or.inr (by decide))
      simpa [skeletonRun, Except.map] using this⟩

/-- Counterexample to C8 as stated: `Skeleton::run` is driven by
`while let Ok(msg) = self.transport.recv().await`, so a transport-level receive
error (here: connection closed) merely exits the loop and `run` returns
`Ok(())` — the error is swallowed, not surfaced to the caller as an error
return. -/
theorem skeleton_swallows_recv_error_counterexample :
    skeletonRun dummyEngine 0 [.error .closed] = some (.ok []) :=
  rfl

/-- C8 (amended): in `PlayerNode::run` every transport-level receive error and
every protocol-level anomaly terminates the session and is surfaced to the
caller as a distinguishable error return; in `Skeleton::run` engine errors
raised while serving an accepted request are surfaced as error returns, but a
transport-level receive error ends the loop with `run` returning success (the
error itself is not surfaced). -/
theorem session_error_surfacing :
    (∀ (firstMove : Bool) (e : TransportErr) (rest : Inbound),
      handshakeModel firstMove (.error e :: rest) = .error (.transport e))
    ∧ (∀ (eng : Nat → Nat → Except EngineErr CGuessResult) (ex : Nat)
        (e : TransportErr) (rest : Inbound),
      opponentRecvLoop eng ex (.error e :: rest) = .error (.transport e))
    ∧ (∀ (e e2 : TransportErr), e ≠ e2 → PNError.transport e ≠ .transport e2)
    ∧ (∀ (eng : EngApi) (sq : Nat) (e : TransportErr) (rest : Inbound),
      skeletonRun eng sq (.error e :: rest) = some (.ok []))
    ∧ (∀ (eng : EngApi) (sq x y : Nat) (e : EngineErr), eng.makeGuess x y = .error e →
      skeletonRun eng sq [.ok (.Guess PROTOCOL_VERSION sq x y)] =
        some (.error (.engine e))) := by
  refine ⟨?_, ?_, ?_, ?_, ?_⟩
  · intro firstMove e rest
    cases firstMove <;> simp [handshakeModel]
  · intro eng ex e rest
    simp [opponentRecvLoop]
  · intro e e2 h
    simp [h]
  · intro eng sq e rest
    simp [skeletonRun]
  · intro eng sq x y e h
    simp [skeletonRun, skeletonStep, h]

/-- Witness for C8 (amended): concrete runs — a receive error is surfaced by
the `PlayerNode` handshake and loop, timeout and closed are distinguishable,
the skeleton returns success on a receive error, and an engine failure inside
the skeleton surfaces as an error. -/
theorem session_error_surfacing_witness :
    handshakeModel true [Except.error TransportErr.closed] = .error (.transport .closed)
    ∧ opponentRecvLoop dummyCore 0 [Except.error TransportErr.timeout] =
        .error (.transport .timeout)
    ∧ PNError.transport .timeout ≠ .transport .closed
    ∧ skeletonRun dummyEngine 0 [Except.error TransportErr.reset] = some (.ok [])
    ∧ skeletonRun ⟨fun _ _ => .error .boardError, dummyEngine.getShipStatus,
        dummyEngine.syncState, dummyEngine.status⟩ 0 [.ok (.Guess 1 0 2 3)] =
        some (.error (.engine .boardError)) :=
  ⟨session_error_surfacing.1 true .closed [],
    session_error_surfacing.2.1 dummyCore 0 .timeout [],
    session_error_surfacing.2.2.1 .timeout .closed (by decide),
    session_error_surfacing.2.2.2.1 dummyEngine 0 .reset [],
    session_error_surfacing.2.2.2.2 ⟨fun _ _ => .error .boardError,
      dummyEngine.getShipStatus, dummyEngine.syncState, dummyEngine.status⟩ 0 2 3
      .boardError rfl⟩

/-- Counterexample to C9 as stated: after the peer half B is explicitly shut
down (which marks the B-to-A direction closed), half A's `send` still enqueues
and returns `Ok` — closure caused by the peer's shutdown does not make this
half's send fail. -/
theorem inmemory_send_peer_shutdown_counterexample :
    sendA (.Heartbeat 1) (shutdownB pairInit) =
      .ok ⟨⟨[], true⟩, ⟨[.Heartbeat 1], false⟩, false, true⟩ :=
  rfl

/-- C9 (amended): `InMemoryTransport::send` enqueues the message and returns
`Ok` immediately unless this half itself was shut down (a shut-down error) or
this half's own send-side queue was marked closed — which only this half's own
shutdown or drop does — in which case it fails with a closed-channel error;
the peer's shutdown or drop closes the peer-to-self direction (observed by
`recv`) and leaves this half's send unaffected. -/
theorem inmemory_send_closure :
    (∀ (msg : Message) (st : PairState), st.shutA = false → st.s2.closed = false →
      sendA msg st = .ok { st with s2 := ⟨st.s2.queue ++ [msg], false⟩ })
    ∧ (∀ (msg : Message) (st : PairState), st.shutA = true →
      sendA msg st = .error .shutDown)
    ∧ (∀ (msg : Message) (st : PairState), st.shutA = false → st.s2.closed = true →
      sendA msg st = .error .closedByPeer)
    ∧ (∀ (msg : Message) (st : PairState), (shutdownA st).s2.closed = true ∧
      (dropA st).s2.closed = true ∧ sendA msg (shutdownA st) = .error .shutDown)
    ∧ (∀ st : PairState, (shutdownB st).shutA = st.shutA ∧ (shutdownB st).s2 = st.s2
      ∧ (dropB st).shutA = st.shutA ∧ (dropB st).s2 = st.s2) := by
  refine ⟨?_, ?_, ?_, ?_, ?_⟩
  · intro msg st h1 h2
    obtain ⟨⟨q1, c1⟩, ⟨q2, c2⟩, sa, sb⟩ := st
    simp only at h1 h2
    subst h1
    subst h2
    simp [sendA]
  · intro msg st h1
    simp [sendA, h1]
  · intro msg st h1 h2
    simp [sendA, h1, h2]
  · intro msg st
    exact ⟨rfl, rfl, by simp [sendA, shutdownA]⟩
  · intro st
    exact ⟨rfl, rfl, rfl, rfl⟩

/-- Witness for C9 (amended): concrete sends — a fresh pair enqueues and
succeeds; after this half's own shutdown it fails; with only the send-side
closed flag set it fails with the closed-channel error; shutdown of A closes
A's send side; and B's shutdown leaves A's send state untouched. -/
theorem inmemory_send_closure_witness :
    sendA (.Heartbeat 1) pairInit = .ok ⟨⟨[], false⟩, ⟨[.Heartbeat 1], false⟩, false, false⟩
    ∧ sendA (.Heartbeat 1) (shutdownA pairInit) = .error .shutDown
    ∧ sendA (.Heartbeat 1) ⟨⟨[], false⟩, ⟨[], true⟩, false, false⟩ = .error .closedByPeer
    ∧ ((shutdownA pairInit).s2.closed = true ∧ (dropA pairInit).s2.closed = true ∧
        sendA (.Heartbeat 1) (shutdownA pairInit) = .error .shutDown)
    ∧ ((shutdownB pairInit).shutA = pairInit.shutA
        ∧ (shutdownB pairInit).s2 = pairInit.s2
        ∧ (dropB pairInit).shutA = pairInit.shutA
        ∧ (dropB pairInit).s2 = pairInit.s2) :=
  ⟨inmemory_send_closure.1 (.Heartbeat 1) pairInit rfl rfl,
    inmemory_send_closure.2.1 (.Heartbeat 1) (shutdownA pairInit) rfl,
    inmemory_send_closure.2.2.1 (.Heartbeat 1) ⟨⟨[], false⟩, ⟨[], true⟩, false, false⟩
      rfl rfl,
    inmemory_send_closure.2.2.2.1 (.Heartbeat 1) pairInit,
    inmemory_send_closure.2.2.2.2 pairInit⟩

end Battleship
